import Mathlib

/-!
Shallow embedding of the SMRITI_AI_SERVER subsystem under specification:
the sliding-window rate limiter (src/utils/middleware.py, rate_limit_by_ip),
the shared Whisper-model lifecycle manager (src/routes/voice_assistant.py,
load_whisper_model / get_model / cleanup_model_if_idle / health_check), and
the transcription request pipeline (src/routes/voice_assistant.py,
transcribe_audio).

Modelling conventions:
- Wall-clock instants (Python time.time) are rationals.
- The per-decorator dictionary request_counts is a total function from caller
  key (client IP string) to its list of timestamps; a key absent from the
  Python dict corresponds to the empty list, matching request_counts.get(ip, []).
- All code guarded by the single model_lock executes atomically; concurrent
  calls are therefore modelled as sequential interleavings of those atomic
  critical sections.
- The external whisper.load_model call is an injected factory outcome
  (Option of an opaque handle); whisper_model.transcribe is an injected
  inference outcome.  The loads field of ModelState is a ghost counter of
  factory invocations.
- base64.b64decode / b64encode are modelled by executable encoders and
  decoders over byte lists; the decoder first discards characters outside the
  base64 alphabet (Python's validate=False behaviour) and then requires a
  well-formed stream of 4-character groups.
-/

/-! ## Rate limiter (src/utils/middleware.py, lines 131-164) -/

/-- Caller-key indexed timestamp windows: the request_counts dictionary. -/
def RateCounts : Type := String → List ℚ

/-- The dictionary as first created, with every key absent (empty window). -/
def emptyCounts : RateCounts := fun _ => []

/-- Purge step (lines 142-146): keep only timestamps strictly newer than
now - per_seconds. -/
def purge_window (perSeconds now : ℚ) (w : List ℚ) : List ℚ :=
  w.filter (fun t => decide (now - perSeconds < t))

/-- One admission check of rate_limit_by_ip for caller ip at time now:
purge, store the purged list, then either reject (429, nothing appended)
when the purged count already reaches max_requests, or append now and accept.
Returns the decision and the updated dictionary. -/
def rateLimitStep (maxRequests : ℕ) (perSeconds : ℚ) (counts : RateCounts)
    (ip : String) (now : ℚ) : Bool × RateCounts :=
  let purged := purge_window perSeconds now (counts ip)
  if maxRequests ≤ purged.length then
    (false, Function.update counts ip purged)
  else
    (true, Function.update counts ip (purged ++ [now]))

/-- Run a sequence of admission checks for one caller, returning the list of
decisions. -/
def runCalls (maxRequests : ℕ) (perSeconds : ℚ) (counts : RateCounts)
    (ip : String) : List ℚ → List Bool
  | [] => []
  | t :: ts =>
      (rateLimitStep maxRequests perSeconds counts ip t).1 ::
        runCalls maxRequests perSeconds
          (rateLimitStep maxRequests perSeconds counts ip t).2 ip ts

/-- A filtered list is strictly shorter when some element fails the filter
predicate. -/
theorem length_filter_lt_of_mem_not {α : Type} (p : α → Bool) (l : List α)
    (x : α) (hx : x ∈ l) (hpx : p x = false) :
    (l.filter p).length < l.length := by
  induction l with
  | nil => cases hx
  | cons a t ih =>
    rcases List.mem_cons.mp hx with hx | hx
    · subst hx
      simp only [List.filter, hpx, List.length_cons]
      exact Nat.lt_succ_of_le (List.length_filter_le p t)
    · simp only [List.filter, List.length_cons]
      cases hpa : p a with
      | false => exact Nat.lt_succ_of_lt (ih hx)
      | true => simpa using Nat.succ_lt_succ (ih hx)

/-- Purging commutes with shifting all timestamps and the clock by the same
offset: the window boundary is relative, not epoch-aligned. -/
theorem purge_window_shift (perSeconds now d : ℚ) (l : List ℚ) :
    purge_window perSeconds (now + d) (l.map (fun x => x + d))
      = (purge_window perSeconds now l).map (fun x => x + d) := by
  induction l with
  | nil => rfl
  | cons a t ih =>
    simp only [purge_window, List.map_cons, List.filter] at *
    have hiff : (now + d - perSeconds < a + d) ↔ (now - perSeconds < a) := by
      constructor <;> intro h <;> linarith
    by_cases h : now - perSeconds < a
    · simp only [decide_eq_true (hiff.mpr h), decide_eq_true h, List.map_cons]
      rw [ih]
    · simp only [decide_eq_false (fun hc => h (hiff.mp hc)), decide_eq_false h]
      exact ih

/-- Claim C1: each admission check first purges from the caller's window every
timestamp older than now - per_seconds; if the remaining count reaches
max_requests it rejects without appending the new timestamp, otherwise it
appends now and accepts; and with max_requests = 2, per_seconds = 60, three
calls from one key within one second give accept, accept, reject. -/
theorem C1_admission_check (maxRequests : ℕ) (perSeconds : ℚ)
    (counts : RateCounts) (ip : String) (now : ℚ) :
    (∀ t ∈ counts ip, t < now - perSeconds →
        t ∉ purge_window perSeconds now (counts ip))
    ∧ (maxRequests ≤ (purge_window perSeconds now (counts ip)).length →
        rateLimitStep maxRequests perSeconds counts ip now =
          (false, Function.update counts ip
            (purge_window perSeconds now (counts ip))))
    ∧ ((purge_window perSeconds now (counts ip)).length < maxRequests →
        rateLimitStep maxRequests perSeconds counts ip now =
          (true, Function.update counts ip
            (purge_window perSeconds now (counts ip) ++ [now])))
    ∧ runCalls 2 60 emptyCounts ip [0, 1/2, 1] = [true, true, false] := by
  refine ⟨?_, ?_, ?_, ?_⟩
  · intro t ht hold hmem
    have := List.mem_filter.mp hmem
    have : now - perSeconds < t := of_decide_eq_true this.2
    linarith
  · intro h
    simp only [rateLimitStep, if_pos h]
  · intro h
    simp only [rateLimitStep, if_neg (Nat.not_le.mpr h)]
  · simp only [runCalls, rateLimitStep, purge_window, emptyCounts,
      List.filter, Function.update_same]
    norm_num

/-- Concrete witness for C1: from the empty state with max_requests = 1 and
per_seconds = 10, a call at time 0 is accepted and recorded. -/
theorem C1_witness :
    rateLimitStep 1 10 emptyCounts "a" 0 =
      (true, Function.update emptyCounts "a"
        (purge_window 10 0 (emptyCounts "a") ++ [0])) := by
  exact (C1_admission_check 1 10 emptyCounts "a" 0).2.2.1 (by decide)

/-- Claim C2: with fixed N and W, the check rejects whenever the purged window
already holds N timestamps; a recorded timestamp t survives a purge at time
now exactly when now < t + W, so eligibility is recomputed relative to now;
once W seconds have elapsed past the oldest recorded call of a full window the
next call is accepted; decisions are invariant under shifting all clocks by a
common offset (no fixed epoch alignment); and a caller whose window holds a
single timestamp t becomes eligible again under N = 1 exactly W seconds
after t. -/
theorem C2_sliding_window (N : ℕ) (W : ℚ) (counts : RateCounts) (ip : String)
    (now : ℚ) :
    (N ≤ (purge_window W now (counts ip)).length →
        (rateLimitStep N W counts ip now).1 = false)
    ∧ (∀ t ∈ counts ip, (t ∈ purge_window W now (counts ip) ↔ now < t + W))
    ∧ (∀ t0 ∈ counts ip, (counts ip).length = N → t0 + W ≤ now →
        (rateLimitStep N W counts ip now).1 = true)
    ∧ (∀ d : ℚ, (rateLimitStep N W (fun k => (counts k).map (fun x => x + d))
          ip (now + d)).1 = (rateLimitStep N W counts ip now).1)
    ∧ (∀ t : ℚ, (rateLimitStep 1 W (Function.update emptyCounts ip [t])
          ip now).1 = true ↔ t + W ≤ now) := by
  refine ⟨?_, ?_, ?_, ?_, ?_⟩
  · intro h
    simp only [rateLimitStep, if_pos h]
  · intro t ht
    constructor
    · intro hmem
      have := of_decide_eq_true (List.mem_filter.mp hmem).2
      linarith
    · intro h
      exact List.mem_filter.mpr ⟨ht, decide_eq_true (by linarith)⟩
  · intro t0 ht0 hlen hpast
    have hfail : (fun t => decide (now - W < t)) t0 = false := by
      simp only [decide_eq_false_iff_not]
      intro hc
      linarith
    have hlt : (purge_window W now (counts ip)).length < N := by
      rw [← hlen]
      exact length_filter_lt_of_mem_not _ _ t0 ht0 hfail
    simp only [rateLimitStep, if_neg (Nat.not_le.mpr hlt)]
  · intro d
    by_cases hc : N ≤ (purge_window W now (counts ip)).length
    · simp only [rateLimitStep, purge_window_shift, List.length_map,
        if_pos hc]
    · simp only [rateLimitStep, purge_window_shift, List.length_map,
        if_neg hc]
  · intro t
    have hup : Function.update emptyCounts ip [t] ip = [t] :=
      Function.update_same ip [t] emptyCounts
    by_cases h : now - W < t
    · have hp : purge_window W now (Function.update emptyCounts ip [t] ip)
          = [t] := by
        rw [hup]
        show List.filter _ [t] = [t]
        rw [List.filter_cons]
        simp [h]
      have hstep : (rateLimitStep 1 W (Function.update emptyCounts ip [t])
          ip now).1 = false := by
        simp only [rateLimitStep, hp, List.length_cons, List.length_nil,
          if_pos (Nat.le_refl 1)]
      rw [hstep]
      constructor
      · intro hc
        exact absurd hc Bool.false_ne_true
      · intro hc
        exfalso
        linarith
    · have hp : purge_window W now (Function.update emptyCounts ip [t] ip)
          = [] := by
        rw [hup]
        show List.filter _ [t] = []
        rw [List.filter_cons]
        simp [h]
      have hstep : (rateLimitStep 1 W (Function.update emptyCounts ip [t])
          ip now).1 = true := by
        simp only [rateLimitStep, hp, List.length_nil,
          if_neg (by omega : ¬ 1 ≤ 0)]
      rw [hstep]
      push_neg at h
      constructor
      · intro _
        linarith
      · intro _
        rfl

/-- Concrete witness for C2: with N = 1, W = 10 and a window holding the
timestamp 5, a check at time 6 is rejected. -/
theorem C2_witness :
    (rateLimitStep 1 10 (Function.update emptyCounts "a" [5]) "a" 6).1
      = false := by
  refine (C2_sliding_window 1 10 (Function.update emptyCounts "a" [5]) "a"
    6).1 ?_
  rw [Function.update_same]
  show 1 ≤ (List.filter (fun t => decide ((6 : ℚ) - 10 < t)) [5]).length
  rw [List.filter_cons]
  have h5 : ((6 : ℚ) - 10 < 5) := by norm_num
  simp [h5]

/-- Claim C9: admission checks preserve the invariant that every stored window
holds at most max_requests timestamps; an accepted check stores the purged
window (which held fewer than max_requests entries) extended by exactly the
one new timestamp, and a rejected check stores the purged window with nothing
appended. -/
theorem C9_window_bound (maxRequests : ℕ) (perSeconds : ℚ)
    (counts : RateCounts) (ip : String) (now : ℚ)
    (hinv : ∀ k, (counts k).length ≤ maxRequests) :
    (∀ k, ((rateLimitStep maxRequests perSeconds counts ip now).2 k).length
        ≤ maxRequests)
    ∧ ((rateLimitStep maxRequests perSeconds counts ip now).1 = true →
        (rateLimitStep maxRequests perSeconds counts ip now).2 ip
            = purge_window perSeconds now (counts ip) ++ [now]
          ∧ (purge_window perSeconds now (counts ip)).length < maxRequests)
    ∧ ((rateLimitStep maxRequests perSeconds counts ip now).1 = false →
        (rateLimitStep maxRequests perSeconds counts ip now).2 ip
          = purge_window perSeconds now (counts ip)) := by
  have hple : (purge_window perSeconds now (counts ip)).length
      ≤ (counts ip).length := List.length_filter_le _ _
  by_cases hfull : maxRequests ≤ (purge_window perSeconds now (counts ip)).length
  · have hstep : rateLimitStep maxRequests perSeconds counts ip now
        = (false, Function.update counts ip
            (purge_window perSeconds now (counts ip))) := by
      simp only [rateLimitStep, if_pos hfull]
    refine ⟨?_, ?_, ?_⟩
    · intro k
      rw [hstep]
      simp only [Function.update_apply]
      by_cases hk : k = ip
      · simp only [if_pos hk]
        exact le_trans hple (hinv ip)
      · simp only [if_neg hk]
        exact hinv k
    · intro htrue
      rw [hstep] at htrue
      exact absurd htrue Bool.false_ne_true
    · intro _
      rw [hstep]
      exact Function.update_same ip _ counts
  · have hstep : rateLimitStep maxRequests perSeconds counts ip now
        = (true, Function.update counts ip
            (purge_window perSeconds now (counts ip) ++ [now])) := by
      simp only [rateLimitStep, if_neg hfull]
    refine ⟨?_, ?_, ?_⟩
    · intro k
      rw [hstep]
      simp only [Function.update_apply]
      by_cases hk : k = ip
      · simp only [if_pos hk, List.length_append, List.length_cons,
          List.length_nil]
        omega
      · simp only [if_neg hk]
        exact hinv k
    · intro _
      rw [hstep]
      exact ⟨Function.update_same ip _ counts, Nat.not_le.mp hfull⟩
    · intro hfalse
      rw [hstep] at hfalse
      exact absurd hfalse (by simp)

/-- Concrete witness for C9: from the empty state with max_requests = 1, the
window stored for the calling key after one check holds at most one
timestamp. -/
theorem C9_witness :
    (((rateLimitStep 1 10 emptyCounts "a" 0).2) "a").length ≤ 1 :=
  (C9_window_bound 1 10 emptyCounts "a" 0 (fun _ => Nat.zero_le 1)).1 "a"

/-! ## Shared model lifecycle (src/routes/voice_assistant.py, lines 13-74
and 196-218).  The globals model / last_used together with a ghost counter of
factory invocations form the state; every step below is one critical section
of model_lock, and concurrent calls are sequential interleavings of these
atomic steps. -/

/-- The module-level globals: the optional model handle, the last_used
timestamp, and a ghost count of whisper.load_model invocations. -/
structure ModelState where
  model : Option ℕ
  lastUsed : ℚ
  loads : ℕ
deriving DecidableEq

/-- load_whisper_model (lines 35-45): invoke the injected factory; on success
set the global model and return true, on failure leave it untouched and
return false.  The ghost loads counter records the factory invocation. -/
def load_whisper_model (factory : Option ℕ) (s : ModelState) :
    Bool × ModelState :=
  match factory with
  | some m => (true, ModelState.mk (some m) s.lastUsed (s.loads + 1))
  | none => (false, ModelState.mk s.model s.lastUsed (s.loads + 1))

/-- get_model (lines 47-58): under model_lock, lazily construct the model if
absent; on construction failure return none without refreshing last_used; on
cache hit or fresh construction refresh last_used to now and return the
handle. -/
def get_model (factory : Option ℕ) (now : ℚ) (s : ModelState) :
    Option ℕ × ModelState :=
  match s.model with
  | none =>
    match load_whisper_model factory s with
    | (false, s1) => (none, s1)
    | (true, s1) => (s1.model, ModelState.mk s1.model now s1.loads)
  | some m => (some m, ModelState.mk (some m) now s.loads)

/-- The sweep's first step (line 65), executed OUTSIDE model_lock: read the
globals and test whether a model is present and has been idle strictly more
than 600 seconds.  Because no lock is held, the state this test reads may be
mutated by an acquire before the sweep's locked step runs. -/
def cleanup_check (now : ℚ) (s : ModelState) : Bool :=
  s.model.isSome && decide (600 < now - s.lastUsed)

/-- The sweep's second step (lines 66-70), the model_lock critical section
entered once the unlocked test has passed: re-check ONLY that a model is
present (the idle time is not re-tested) and delete it.  Its argument is the
state at lock acquisition, which may differ from the state the unlocked test
saw. -/
def cleanup_locked (s : ModelState) : ModelState :=
  if s.model.isSome then ModelState.mk none s.lastUsed s.loads else s

/-- cleanup_model_if_idle (lines 60-70) when no acquire interleaves between
its two steps: the unlocked idle test followed, on the same state, by the
locked deletion.  This uninterfered composition is what one sequential call
of the function performs. -/
def cleanup_model_if_idle (now : ℚ) (s : ModelState) : ModelState :=
  if cleanup_check now s then cleanup_locked s else s

/-- health_check (lines 196-218): acquire the model through get_model and
report loaded or not_loaded. -/
def health_check (factory : Option ℕ) (now : ℚ) (s : ModelState) :
    String × ModelState :=
  match get_model factory now s with
  | (some _, s1) => ("loaded", s1)
  | (none, s1) => ("not_loaded", s1)

/-- Counterexample for C3: the sweep CAN destroy a model whose last_used was
refreshed within the idle timeout, because the idle test runs outside
model_lock and the locked section re-checks only presence.  Concrete
interleaving: a model loaded at time 0 is seen by the sweep's unlocked test
at time 601 (check passes, 601 seconds idle); an acquire then takes the lock
and refreshes last_used to 601 (0 seconds idle, well within the timeout);
the sweep's locked deletion then runs on that refreshed state and still
evicts the model. -/
theorem C3_counterexample :
    cleanup_check 601 (ModelState.mk (some 7) 0 1) = true
    ∧ (get_model (some 7) 601 (ModelState.mk (some 7) 0 1)).2.lastUsed = 601
    ∧ (601 : ℚ) - (get_model (some 7) 601
        (ModelState.mk (some 7) 0 1)).2.lastUsed ≤ 600
    ∧ (cleanup_locked
        (get_model (some 7) 601 (ModelState.mk (some 7) 0 1)).2).model
      = none := by
  refine ⟨?_, rfl, ?_, rfl⟩
  · simp only [cleanup_check, Option.isSome_some, Bool.true_and,
      decide_eq_true_eq]
    norm_num
  · show (601 : ℚ) - 601 ≤ 600
    norm_num

/-- Claim C3 as amended: a sweep with no acquire interleaved between its two
steps evicts exactly when a model is present and now - last_used exceeds 600
seconds, leaves recently-used or absent states untouched, and after an
eviction the next acquire reconstructs the model; but only the presence test
is re-run under model_lock — the idle test happens outside it — so once the
sweep's unlocked check has passed on a stale state, its locked deletion
evicts any present model even when that model's last_used was refreshed to
within the idle timeout in the meantime. -/
theorem C3_idle_eviction (now now2 : ℚ) (s s1 : ModelState) (m : ℕ) :
    (s.model.isSome → 600 < now - s.lastUsed →
        (cleanup_model_if_idle now s).model = none)
    ∧ (now - s.lastUsed ≤ 600 → cleanup_model_if_idle now s = s)
    ∧ (s.model = none → cleanup_model_if_idle now s = s)
    ∧ ((cleanup_model_if_idle now s).model = none →
        (get_model (some m) now2 (cleanup_model_if_idle now s)).1 = some m
        ∧ (get_model (some m) now2 (cleanup_model_if_idle now s)).2.model
            = some m
        ∧ (get_model (some m) now2 (cleanup_model_if_idle now s)).2.loads
            = (cleanup_model_if_idle now s).loads + 1)
    ∧ (cleanup_check now s = true → s1.model.isSome →
        now - s1.lastUsed ≤ 600 → (cleanup_locked s1).model = none) := by
  refine ⟨?_, ?_, ?_, ?_, ?_⟩
  · intro hsome hidle
    have hchk : cleanup_check now s = true := by
      simp only [cleanup_check, hsome, Bool.true_and, decide_eq_true_eq]
      exact hidle
    simp only [cleanup_model_if_idle, hchk, if_true, cleanup_locked,
      hsome, if_pos]
  · intro hrecent
    have hchk : cleanup_check now s = false := by
      simp only [cleanup_check, Bool.and_eq_false_iff, decide_eq_false_iff_not]
      right
      intro hc
      linarith
    simp [cleanup_model_if_idle, hchk]
  · intro habs
    have hchk : cleanup_check now s = false := by
      simp only [cleanup_check, habs, Option.isSome_none, Bool.false_and]
    simp [cleanup_model_if_idle, hchk]
  · intro habs
    simp only [get_model, habs, load_whisper_model]
    exact ⟨trivial, trivial, trivial⟩
  · intro _ hsome1 _
    simp only [cleanup_locked, hsome1, if_pos]

/-- Concrete witness for C3 (amended): a model present since time 0 and
swept at time 601 with no interleaving is evicted, the acquire that follows
reconstructs it, and the race conjunct fires on the concrete interleaved
trace: check passed at 601 on the stale state, the refreshed state has
last_used 601, and the locked deletion still evicts. -/
theorem C3_witness :
    (cleanup_model_if_idle 601 (ModelState.mk (some 7) 0 1)).model = none
    ∧ (get_model (some 7) 602
        (cleanup_model_if_idle 601 (ModelState.mk (some 7) 0 1))).1
          = some 7
    ∧ (cleanup_locked (ModelState.mk (some 7) 601 1)).model = none := by
  have h := C3_idle_eviction 601 602 (ModelState.mk (some 7) 0 1)
    (ModelState.mk (some 7) 601 1) 7
  have habs : (cleanup_model_if_idle 601 (ModelState.mk (some 7) 0 1)).model
      = none := h.1 rfl (by norm_num)
  have hchk : cleanup_check 601 (ModelState.mk (some 7) 0 1) = true := by
    simp only [cleanup_check, Option.isSome_some, Bool.true_and,
      decide_eq_true_eq]
    norm_num
  refine ⟨habs, (h.2.2.2.1 habs).1, ?_⟩
  exact h.2.2.2.2 hchk rfl (by norm_num)

/-- Counterexample for C5: with a failing factory and an absent model, two
serialized acquire calls (the interleaving the model_lock enforces for two
concurrent callers) invoke the factory twice — not exactly once as the claim
states: each caller that finds the model absent runs its own construction
attempt. -/
theorem C5_counterexample :
    ((get_model none 0 (get_model none 0 (ModelState.mk none 0 0)).2).2).loads
        = 2
    ∧ ¬ ((get_model none 0
        (get_model none 0 (ModelState.mk none 0 0)).2).2).loads = 1 := by
  constructor
  · rfl
  · intro h
    simp only [get_model, load_whisper_model] at h
    omega

/-- Claim C5 as amended: from an absent model, two serialized acquire calls
with a succeeding factory perform exactly one construction and both observe
the same instance; with a failing factory each caller performs its own
construction attempt, all observe the failure (none), the manager remains in
the absent state, and a later acquire with a working factory reconstructs
from scratch. -/
theorem C5_construction (s : ModelState) (m : ℕ) (t1 t2 t3 : ℚ)
    (hs : s.model = none) :
    ((get_model (some m) t1 s).1 = some m
      ∧ (get_model (some m) t2 (get_model (some m) t1 s).2).1 = some m
      ∧ ((get_model (some m) t2 (get_model (some m) t1 s).2).2).loads
          = s.loads + 1)
    ∧ ((get_model none t1 s).1 = none
      ∧ (get_model none t2 (get_model none t1 s).2).1 = none
      ∧ ((get_model none t2 (get_model none t1 s).2).2).model = none
      ∧ ((get_model none t2 (get_model none t1 s).2).2).loads = s.loads + 2
      ∧ (get_model (some m) t3 ((get_model none t1 s).2)).1 = some m) := by
  constructor
  · refine ⟨?_, ?_, ?_⟩ <;> simp only [get_model, hs, load_whisper_model]
  · refine ⟨?_, ?_, ?_, ?_, ?_⟩ <;>
      simp only [get_model, hs, load_whisper_model]

/-- Concrete witness for C5: from the initial absent state, two acquires with
a succeeding factory both return handle 3 after a single construction, and
with a failing factory the state stays absent. -/
theorem C5_witness :
    (get_model (some 3) 1 (ModelState.mk none 0 0)).1 = some 3
    ∧ ((get_model none 2
        (get_model none 1 (ModelState.mk none 0 0)).2).2).model = none := by
  have h := C5_construction (ModelState.mk none 0 0) 3 1 2 3 rfl
  exact ⟨h.1.1, h.2.2.2.1⟩

/-- Counterexample for C4: querying health when the model is absent does not
leave it absent — health_check acquires through get_model, which constructs:
from the absent state with a succeeding factory the model becomes present and
one factory invocation is recorded. -/
theorem C4_counterexample :
    ((health_check (some 7) 1 (ModelState.mk none 0 0)).2).model = some 7
    ∧ ((health_check (some 7) 1 (ModelState.mk none 0 0)).2).loads = 1 := by
  exact ⟨rfl, rfl⟩

/-- Claim C4 as amended: the health check reports only loaded or not_loaded,
and it reports loaded exactly when get_model yields a handle; but it does
trigger construction: from an absent state it always invokes the factory
once; only when that construction fails does the model remain absent, with
not_loaded reported as an advisory status rather than an error. -/
theorem C4_health (factory : Option ℕ) (now : ℚ) (s : ModelState) :
    ((health_check factory now s).1 = "loaded"
      ∨ (health_check factory now s).1 = "not_loaded")
    ∧ ((health_check factory now s).1 = "loaded"
        ↔ (get_model factory now s).1.isSome = true)
    ∧ (s.model = none → (health_check factory now s).2.loads = s.loads + 1)
    ∧ (s.model = none → factory = none →
        (health_check factory now s).2.model = none
        ∧ (health_check factory now s).1 = "not_loaded") := by
  refine ⟨?_, ?_, ?_, ?_⟩
  · cases hg : get_model factory now s with
    | mk o s1 =>
      cases o with
      | none =>
        right
        simp only [health_check, hg]
      | some m =>
        left
        simp only [health_check, hg]
  · cases hg : get_model factory now s with
    | mk o s1 =>
      cases o with
      | none =>
        simp only [health_check, hg, Option.isSome_none]
        constructor
        · intro h
          exact absurd h (by decide)
        · intro h
          exact absurd h (by decide)
      | some m =>
        simp only [health_check, hg, Option.isSome_some]
  · intro habs
    cases factory with
    | none => simp only [health_check, get_model, habs, load_whisper_model]
    | some m => simp only [health_check, get_model, habs, load_whisper_model]
  · intro habs hfac
    subst hfac
    refine ⟨?_, ?_⟩ <;>
      simp only [health_check, get_model, habs, load_whisper_model]

/-- Concrete witness for C4 (amended): from the absent state with a failing
factory, the health check reports not_loaded and leaves the model absent,
after exactly one construction attempt. -/
theorem C4_witness :
    (health_check none 1 (ModelState.mk none 0 0)).1 = "not_loaded"
    ∧ ((health_check none 1 (ModelState.mk none 0 0)).2).model = none
    ∧ ((health_check none 1 (ModelState.mk none 0 0)).2).loads = 1 := by
  have h := C4_health none 1 (ModelState.mk none 0 0)
  have h4 := h.2.2.2 rfl rfl
  exact ⟨h4.2, h4.1, h.2.2.1 rfl⟩

/-! ## Transcription request pipeline (src/routes/voice_assistant.py,
lines 76-183).  The parsed JSON request body is modelled explicitly so that
the Python dynamic-typing behaviour of the membership test
(audio_data not in data), the subscript data[audio_data] and len(audio_data)
is captured: on values that do not support the operation the corresponding
Python expression raises, which the outer except absorbs into the 500
response. -/

/-- Parsed JSON values, as returned by request.get_json(). -/
inductive Json where
  | null : Json
  | jbool : Bool → Json
  | num : ℤ → Json
  | str : String → Json
  | arr : List Json → Json
  | obj : List (String × Json) → Json

/-- Equality test of a JSON value against a Python string, as used by list
membership: only a string with the same contents compares equal. -/
def jsonEqStr (j : Json) (k : String) : Bool :=
  match j with
  | .str s => s = k
  | _ => false

/-- Whether the needle is a leading segment of the haystack. -/
def charsLeading : List Char → List Char → Bool
  | [], _ => true
  | _ :: _, [] => false
  | x :: xs, y :: ys => x = y && charsLeading xs ys

/-- Whether the needle occurs contiguously anywhere in the haystack. -/
def charsHaveSub (needle : List Char) : List Char → Bool
  | [] => charsLeading needle []
  | y :: ys => charsLeading needle (y :: ys) || charsHaveSub needle ys

/-- Python substring membership k in s for strings. -/
def strContains (s k : String) : Bool := charsHaveSub k.data s.data

/-- Python membership test k in j.  Dictionaries test key membership, lists
test element equality, strings test substring; null, numbers and booleans do
not support the operator and raise (TypeError). -/
def pyContains (j : Json) (k : String) : Except Unit Bool :=
  match j with
  | .obj fields => .ok (fields.any (fun p => p.1 = k))
  | .arr xs => .ok (xs.any (fun x => jsonEqStr x k))
  | .str s => .ok (strContains s k)
  | _ => .error ()

/-- Python subscript j[k] with a string key: only dictionaries support it
(KeyError on a missing key, TypeError on every non-dict value). -/
def pySubscript (j : Json) (k : String) : Except Unit Json :=
  match j with
  | .obj fields =>
    match fields.find? (fun p => p.1 = k) with
    | some p => .ok p.2
    | none => .error ()
  | _ => .error ()

/-- Python len(j): strings, lists and dictionaries have a length; null,
numbers and booleans raise (TypeError). -/
def pyLen (j : Json) : Except Unit ℕ :=
  match j with
  | .str s => .ok s.length
  | .arr xs => .ok xs.length
  | .obj fields => .ok fields.length
  | _ => .error ()

/-! ### base64 (the base64.b64encode / b64decode library calls) -/

/-- The 64-character base64 alphabet. -/
def b64Alphabet : List Char :=
  "ABCDEFGHIJKLMNOPQRSTUVWXYZabcdefghijklmnopqrstuvwxyz0123456789+/".data

/-- Character for a sextet value. -/
def sextetToChar (n : ℕ) : Char := b64Alphabet.getD n 'A'

/-- Sextet value of a character; error when the character is not in the
alphabet. -/
def charToSextet (c : Char) : Except Unit ℕ :=
  match b64Alphabet.findIdx? (fun x => x = c) with
  | some i => .ok i
  | none => .error ()

/-- Encode a byte list into base64 characters, three bytes per four
characters, padding the final partial group with =. -/
def b64EncodeChunks : List ℕ → List Char
  | [] => []
  | [a] => [sextetToChar (a / 4), sextetToChar (a % 4 * 16), '=', '=']
  | [a, b] => [sextetToChar (a / 4), sextetToChar (a % 4 * 16 + b / 16),
      sextetToChar (b % 16 * 4), '=']
  | a :: b :: c :: rest =>
      sextetToChar (a / 4) :: sextetToChar (a % 4 * 16 + b / 16) ::
        sextetToChar (b % 16 * 4 + c / 64) :: sextetToChar (c % 64) ::
          b64EncodeChunks rest

/-- base64.b64encode as a string producer. -/
def b64encode (bs : List ℕ) : String := String.mk (b64EncodeChunks bs)

/-- Decode a stream of 4-character base64 groups; = padding is accepted only
at the end of the final group; any other malformation is an error. -/
def b64decodeGroups : List Char → Except Unit (List ℕ)
  | [] => .ok []
  | c1 :: c2 :: c3 :: c4 :: rest =>
    match charToSextet c1 with
    | .error _ => .error ()
    | .ok w =>
      match charToSextet c2 with
      | .error _ => .error ()
      | .ok x =>
        if c3 = '=' ∧ c4 = '=' ∧ rest = [] then
          .ok [w * 4 + x / 16]
        else if c4 = '=' ∧ rest = [] then
          match charToSextet c3 with
          | .error _ => .error ()
          | .ok y => .ok [w * 4 + x / 16, x % 16 * 16 + y / 4]
        else
          match charToSextet c3 with
          | .error _ => .error ()
          | .ok y =>
            match charToSextet c4 with
            | .error _ => .error ()
            | .ok z =>
              match b64decodeGroups rest with
              | .error _ => .error ()
              | .ok tail =>
                .ok ((w * 4 + x / 16) :: (x % 16 * 16 + y / 4) ::
                  (y % 4 * 64 + z) :: tail)
  | _ => .error ()

/-- base64.b64decode with its default validate=False behaviour: characters
outside the alphabet and the padding character are discarded first, then the
remaining stream must form well-shaped 4-character groups. -/
def b64decode (s : String) : Except Unit (List ℕ) :=
  b64decodeGroups
    (s.data.filter (fun c => b64Alphabet.contains c || c = '='))

/-- Decoding inverts encoding on sextet values. -/
theorem charToSextet_sextetToChar :
    ∀ n, n < 64 → charToSextet (sextetToChar n) = Except.ok n := by
  intro n hn
  interval_cases n <;> rfl

/-- No sextet encodes to the padding character. -/
theorem sextetToChar_ne_pad : ∀ n, n < 64 → ¬ (sextetToChar n = '=') := by
  decide

/-- Every encoded sextet character is in the alphabet. -/
theorem b64mem_of_lt : ∀ n, n < 64 → sextetToChar n ∈ b64Alphabet := by
  decide

/-- The pre-decode filter leaves an encoded byte stream untouched: every
character the encoder emits is in the alphabet or is the padding
character. -/
theorem b64Filter_encode : ∀ (bs : List ℕ), (∀ x ∈ bs, x < 256) →
    (b64EncodeChunks bs).filter
        (fun c => b64Alphabet.contains c || c = '=') = b64EncodeChunks bs
  | [], _ => rfl
  | [a], h => by
    have ha : a < 256 := h a (by simp)
    simp [b64EncodeChunks, List.filter_cons,
      b64mem_of_lt (a / 4) (by omega),
      b64mem_of_lt (a % 4 * 16) (by omega)]
  | [a, b], h => by
    have ha : a < 256 := h a (by simp)
    have hb : b < 256 := h b (by simp)
    simp [b64EncodeChunks, List.filter_cons,
      b64mem_of_lt (a / 4) (by omega),
      b64mem_of_lt (a % 4 * 16 + b / 16) (by omega),
      b64mem_of_lt (b % 16 * 4) (by omega)]
  | a :: b :: c :: d :: rest, h => by
    have ha : a < 256 := h a (by simp)
    have hb : b < 256 := h b (by simp)
    have hc : c < 256 := h c (by simp)
    have ih := b64Filter_encode (d :: rest)
      (fun x hx => h x (by simp at hx ⊢; tauto))
    simp only [b64EncodeChunks, List.filter_cons]
    rw [ih]
    simp [b64mem_of_lt (a / 4) (by omega),
      b64mem_of_lt (a % 4 * 16 + b / 16) (by omega),
      b64mem_of_lt (b % 16 * 4 + c / 64) (by omega),
      b64mem_of_lt (c % 64) (by omega)]
  | [a, b, c], h => by
    have ha : a < 256 := h a (by simp)
    have hb : b < 256 := h b (by simp)
    have hc : c < 256 := h c (by simp)
    simp [b64EncodeChunks, List.filter_cons,
      b64mem_of_lt (a / 4) (by omega),
      b64mem_of_lt (a % 4 * 16 + b / 16) (by omega),
      b64mem_of_lt (b % 16 * 4 + c / 64) (by omega),
      b64mem_of_lt (c % 64) (by omega)]

/-- Decoding the four-character groups produced by the encoder recovers the
original bytes. -/
theorem b64decodeGroups_encode : ∀ (bs : List ℕ), (∀ x ∈ bs, x < 256) →
    b64decodeGroups (b64EncodeChunks bs) = Except.ok bs
  | [], _ => rfl
  | [a], h => by
    have ha : a < 256 := h a (by simp)
    simp only [b64EncodeChunks, b64decodeGroups,
      charToSextet_sextetToChar (a / 4) (by omega),
      charToSextet_sextetToChar (a % 4 * 16) (by omega)]
    rw [if_pos (by simp)]
    have hv : a / 4 * 4 + a % 4 * 16 / 16 = a := by omega
    rw [hv]
  | [a, b], h => by
    have ha : a < 256 := h a (by simp)
    have hb : b < 256 := h b (by simp)
    simp only [b64EncodeChunks, b64decodeGroups,
      charToSextet_sextetToChar (a / 4) (by omega),
      charToSextet_sextetToChar (a % 4 * 16 + b / 16) (by omega),
      charToSextet_sextetToChar (b % 16 * 4) (by omega)]
    rw [if_neg (fun hcon =>
      sextetToChar_ne_pad (b % 16 * 4) (by omega) hcon.1)]
    rw [if_pos (by simp)]
    have h1 : a / 4 * 4 + (a % 4 * 16 + b / 16) / 16 = a := by omega
    have h2 : (a % 4 * 16 + b / 16) % 16 * 16 + b % 16 * 4 / 4 = b := by
      omega
    rw [h1, h2]
  | [a, b, c], h => by
    have ha : a < 256 := h a (by simp)
    have hb : b < 256 := h b (by simp)
    have hc : c < 256 := h c (by simp)
    simp only [b64EncodeChunks, b64decodeGroups,
      charToSextet_sextetToChar (a / 4) (by omega),
      charToSextet_sextetToChar (a % 4 * 16 + b / 16) (by omega),
      charToSextet_sextetToChar (b % 16 * 4 + c / 64) (by omega),
      charToSextet_sextetToChar (c % 64) (by omega)]
    rw [if_neg (fun hcon =>
      sextetToChar_ne_pad (b % 16 * 4 + c / 64) (by omega) hcon.1)]
    rw [if_neg (fun hcon =>
      sextetToChar_ne_pad (c % 64) (by omega) hcon.1)]
    have h1 : a / 4 * 4 + (a % 4 * 16 + b / 16) / 16 = a := by omega
    have h2 : (a % 4 * 16 + b / 16) % 16 * 16
        + (b % 16 * 4 + c / 64) / 4 = b := by omega
    have h3 : (b % 16 * 4 + c / 64) % 4 * 64 + c % 64 = c := by omega
    rw [h1, h2, h3]
  | a :: b :: c :: d :: rest, h => by
    have ha : a < 256 := h a (by simp)
    have hb : b < 256 := h b (by simp)
    have hc : c < 256 := h c (by simp)
    have ih := b64decodeGroups_encode (d :: rest)
      (fun x hx => h x (by simp at hx ⊢; tauto))
    simp only [b64EncodeChunks, b64decodeGroups,
      charToSextet_sextetToChar (a / 4) (by omega),
      charToSextet_sextetToChar (a % 4 * 16 + b / 16) (by omega),
      charToSextet_sextetToChar (b % 16 * 4 + c / 64) (by omega),
      charToSextet_sextetToChar (c % 64) (by omega)]
    rw [if_neg (fun hcon =>
      sextetToChar_ne_pad (b % 16 * 4 + c / 64) (by omega) hcon.1)]
    rw [if_neg (fun hcon =>
      sextetToChar_ne_pad (c % 64) (by omega) hcon.1)]
    rw [ih]
    have h1 : a / 4 * 4 + (a % 4 * 16 + b / 16) / 16 = a := by omega
    have h2 : (a % 4 * 16 + b / 16) % 16 * 16
        + (b % 16 * 4 + c / 64) / 4 = b := by omega
    have h3 : (b % 16 * 4 + c / 64) % 4 * 64 + c % 64 = c := by omega
    rw [h1, h2, h3]

/-- Full base64 round trip: decoding an encoded byte stream yields exactly
the original bytes. -/
theorem b64_roundtrip (bs : List ℕ) (h : ∀ x ∈ bs, x < 256) :
    b64decode (b64encode bs) = Except.ok bs := by
  show b64decodeGroups ((b64EncodeChunks bs).filter _) = Except.ok bs
  rw [b64Filter_encode bs h]
  exact b64decodeGroups_encode bs h

/-! ### The transcribe_audio handler (lines 76-183) -/

/-- The supported-language mapping SUPPORTED_LANGUAGES (lines 19-33). -/
def SUPPORTED_LANGUAGES : List (String × String) :=
  [("en", "English"), ("hi", "Hindi"), ("bn", "Bengali"), ("te", "Telugu"),
   ("ta", "Tamil"), ("gu", "Gujarati"), ("kn", "Kannada"),
   ("ml", "Malayalam"), ("pa", "Punjabi"), ("or", "Odia"),
   ("mr", "Marathi"), ("as", "Assamese"), ("ur", "Urdu")]

/-- is_supported_language (lines 72-74). -/
def is_supported_language (c : String) : Bool :=
  SUPPORTED_LANGUAGES.any (fun p => p.1 = c)

/-- SUPPORTED_LANGUAGES.get(code, English) (line 158). -/
def languageName (c : String) : String :=
  match SUPPORTED_LANGUAGES.find? (fun p => p.1 = c) with
  | some p => p.2
  | none => "English"

/-- The possible handler responses, by status code and branch. -/
inductive TranscribeResult where
  | missingField : TranscribeResult
  | tooLarge : TranscribeResult
  | invalidBase64 : TranscribeResult
  | modelUnavailable : TranscribeResult
  | success : String → String → String → TranscribeResult
  | serverError : TranscribeResult
deriving DecidableEq

/-- Outcome of one handler call: the response, the model state after the
call, the set of temp files existing after the call, plus two ghost fields:
whether the base64 decode step was reached, and the decoded bytes handed to
the inference backend (none when inference was never reached). -/
structure PipelineOutcome where
  result : TranscribeResult
  state : ModelState
  files : List String
  decodeAttempted : Bool
  decodedBytes : Option (List ℕ)

/-- os.unlink inside the finally block (lines 169-175). -/
def removeFile (p : String) (files : List String) : List String :=
  files.filter (fun q => decide (q ≠ p))

/-- transcribe_audio (lines 76-183), after require_json and the admission
check have passed.  Parameters beyond the request body: the injected factory
and inference outcomes, the clock, the fresh temporary file name chosen by
tempfile.NamedTemporaryFile, the model state, and the pre-existing temp
files.  Python dynamic-typing faults (membership, subscript or len on a
value that does not support it) propagate to the outer except and produce
the 500 response; a decode-step fault produces the 400 invalid-base64
response; an inference fault runs the finally block (removing the temp file)
and then the outer except. -/
def transcribe_audio (factory : Option ℕ) (now : ℚ)
    (infer : List ℕ → Except Unit (String × String)) (body : Json)
    (tempName : String) (s0 : ModelState) (files0 : List String) :
    PipelineOutcome :=
  match get_model factory now (cleanup_model_if_idle now s0) with
  | (none, s2) => PipelineOutcome.mk .modelUnavailable s2 files0 false none
  | (some _, s2) =>
    match pyContains body "audio_data" with
    | .error _ => PipelineOutcome.mk .serverError s2 files0 false none
    | .ok false => PipelineOutcome.mk .missingField s2 files0 false none
    | .ok true =>
      match pySubscript body "audio_data" with
      | .error _ => PipelineOutcome.mk .serverError s2 files0 false none
      | .ok audio_data =>
        match pyLen audio_data with
        | .error _ => PipelineOutcome.mk .serverError s2 files0 false none
        | .ok n =>
          if 5 * 1024 * 1024 < n then
            PipelineOutcome.mk .tooLarge s2 files0 false none
          else
            match audio_data with
            | .str payload =>
              match b64decode payload with
              | .error _ =>
                PipelineOutcome.mk .invalidBase64 s2 files0 true none
              | .ok audio_bytes =>
                match infer audio_bytes with
                | .ok (text, lang) =>
                  PipelineOutcome.mk
                    (.success text.trim
                      (if is_supported_language lang then lang else "en")
                      (languageName
                        (if is_supported_language lang then lang else "en")))
                    s2 (removeFile tempName (tempName :: files0)) true
                    (some audio_bytes)
                | .error _ =>
                  PipelineOutcome.mk .serverError s2
                    (removeFile tempName (tempName :: files0)) true
                    (some audio_bytes)
            | _ => PipelineOutcome.mk .invalidBase64 s2 files0 true none

/-- A removed temp file is no longer among the files. -/
theorem not_mem_removeFile (p : String) (files : List String) :
    p ∉ removeFile p files := by
  intro h
  exact (of_decide_eq_true (List.mem_filter.mp h).2) rfl

/-- Every handler call either leaves the temp files untouched and never
decodes bytes for inference, or has created and then removed the temp file
and handed decoded bytes to the backend. -/
theorem transcribe_files_spec (factory : Option ℕ) (now : ℚ)
    (infer : List ℕ → Except Unit (String × String)) (body : Json)
    (tempName : String) (s0 : ModelState) (files0 : List String) :
    ((transcribe_audio factory now infer body tempName s0 files0).files
        = files0
      ∧ (transcribe_audio factory now infer body tempName s0
          files0).decodedBytes = none)
    ∨ ((transcribe_audio factory now infer body tempName s0 files0).files
        = removeFile tempName (tempName :: files0)
      ∧ (transcribe_audio factory now infer body tempName s0
          files0).decodedBytes.isSome = true) := by
  unfold transcribe_audio
  repeat' split
  all_goals first
    | exact Or.inl ⟨rfl, rfl⟩
    | exact Or.inr ⟨rfl, rfl⟩

/-- Claim C8: on every exit path that reaches the temporary-storage step
(success, inference failure, or any fault after the decoded bytes were
written), the temp file is absent when the call returns; on every earlier
exit the temp files are exactly as they were before the call. -/
theorem C8_temp_cleanup (factory : Option ℕ) (now : ℚ)
    (infer : List ℕ → Except Unit (String × String)) (body : Json)
    (tempName : String) (s0 : ModelState) (files0 : List String) :
    ((transcribe_audio factory now infer body tempName s0
        files0).decodedBytes.isSome = true →
      tempName ∉
        (transcribe_audio factory now infer body tempName s0 files0).files)
    ∧ ((transcribe_audio factory now infer body tempName s0
        files0).decodedBytes = none →
      (transcribe_audio factory now infer body tempName s0 files0).files
        = files0) := by
  rcases transcribe_files_spec factory now infer body tempName s0 files0 with
    ⟨hf, hd⟩ | ⟨hf, hd⟩
  · constructor
    · intro h
      rw [hd] at h
      cases h
    · intro _
      exact hf
  · constructor
    · intro _
      rw [hf]
      exact not_mem_removeFile tempName (tempName :: files0)
    · intro h
      rw [h] at hd
      cases hd

/-- Concrete witness for C8: a fully successful transcription call leaves no
trace of its temp file t. -/
theorem C8_witness :
    "t" ∉ (transcribe_audio (some 1) 0 (fun _ => Except.ok ("hi", "en"))
        (Json.obj [("audio_data", Json.str (b64encode [65]))]) "t"
        (ModelState.mk none 0 0) []).files := by
  exact (C8_temp_cleanup (some 1) 0 (fun _ => Except.ok ("hi", "en"))
      (Json.obj [("audio_data", Json.str (b64encode [65]))]) "t"
      (ModelState.mk none 0 0) []).1 rfl

/-- Claim C6: once a transcription request with an available model reaches
the payload checks, a payload string longer than the fixed 5 MiB ceiling is
answered with the 413 too-large response and the decode step is never
reached, while a payload at or under the ceiling always reaches the decode
step. -/
theorem C6_size_ceiling (factory : Option ℕ) (now : ℚ)
    (infer : List ℕ → Except Unit (String × String)) (body : Json)
    (tempName : String) (s0 : ModelState) (files0 : List String)
    (payload : String)
    (hm : (get_model factory now (cleanup_model_if_idle now s0)).1.isSome)
    (hc : pyContains body "audio_data" = Except.ok true)
    (hs : pySubscript body "audio_data" = Except.ok (Json.str payload)) :
    (5 * 1024 * 1024 < payload.length →
      (transcribe_audio factory now infer body tempName s0 files0).result
          = TranscribeResult.tooLarge
      ∧ (transcribe_audio factory now infer body tempName s0
          files0).decodeAttempted = false)
    ∧ (payload.length ≤ 5 * 1024 * 1024 →
      (transcribe_audio factory now infer body tempName s0
          files0).decodeAttempted = true) := by
  obtain ⟨m, hm2⟩ := Option.isSome_iff_exists.mp hm
  have hpr : get_model factory now (cleanup_model_if_idle now s0)
      = (some m, (get_model factory now (cleanup_model_if_idle now s0)).2) := by
    rw [← hm2]
  generalize (get_model factory now (cleanup_model_if_idle now s0)).2 = s2
    at hpr
  constructor
  · intro hbig
    constructor <;>
      simp only [transcribe_audio, hpr, hc, hs, pyLen, if_pos hbig]
  · intro hsmall
    simp only [transcribe_audio, hpr, hc, hs, pyLen,
      if_neg (Nat.not_lt.mpr hsmall)]
    cases hd : b64decode payload with
    | error e => rfl
    | ok bytes =>
      cases hi : infer bytes with
      | error e => simp [hi]
      | ok pr =>
        obtain ⟨text, lang⟩ := pr
        simp [hi]

/-- Concrete witness for C6: a request whose payload is 5242881 characters
long is rejected as too large. -/
theorem C6_witness :
    5 * 1024 * 1024 < (String.mk (List.replicate 5242881 'A')).length
    ∧ (transcribe_audio (some 1) 0 (fun _ => Except.error ())
        (Json.obj [("audio_data",
          Json.str (String.mk (List.replicate 5242881 'A')))])
        "t" (ModelState.mk none 0 0) []).result
      = TranscribeResult.tooLarge := by
  have hbig : 5 * 1024 * 1024
      < (String.mk (List.replicate 5242881 'A')).length := by
    show 5 * 1024 * 1024 < (List.replicate 5242881 'A').length
    rw [List.length_replicate]
    norm_num
  refine ⟨hbig, ?_⟩
  exact ((C6_size_ceiling (some 1) 0 (fun _ => Except.error ())
      (Json.obj [("audio_data",
        Json.str (String.mk (List.replicate 5242881 'A')))])
      "t" (ModelState.mk none 0 0) []
      (String.mk (List.replicate 5242881 'A')) rfl rfl rfl).1 hbig).1

/-- Claim C7: when the decode step rejects the payload, the request is
answered with the 400 invalid-base64 response; decoding inverts encoding on
arbitrary byte streams; and a request whose in-ceiling payload is the
encoding of a byte stream hands exactly those bytes to the inference
backend. -/
theorem C7_base64_decode (factory : Option ℕ) (now : ℚ)
    (infer : List ℕ → Except Unit (String × String)) (body : Json)
    (tempName : String) (s0 : ModelState) (files0 : List String)
    (payload : String)
    (hm : (get_model factory now (cleanup_model_if_idle now s0)).1.isSome)
    (hc : pyContains body "audio_data" = Except.ok true)
    (hs : pySubscript body "audio_data" = Except.ok (Json.str payload))
    (hlen : payload.length ≤ 5 * 1024 * 1024) :
    (b64decode payload = Except.error () →
      (transcribe_audio factory now infer body tempName s0 files0).result
        = TranscribeResult.invalidBase64)
    ∧ (∀ bs : List ℕ, (∀ x ∈ bs, x < 256) →
        b64decode (b64encode bs) = Except.ok bs)
    ∧ (∀ bs : List ℕ, (∀ x ∈ bs, x < 256) → payload = b64encode bs →
        (transcribe_audio factory now infer body tempName s0
          files0).decodedBytes = some bs) := by
  obtain ⟨m, hm2⟩ := Option.isSome_iff_exists.mp hm
  have hpr : get_model factory now (cleanup_model_if_idle now s0)
      = (some m, (get_model factory now (cleanup_model_if_idle now s0)).2) := by
    rw [← hm2]
  generalize (get_model factory now (cleanup_model_if_idle now s0)).2 = s2
    at hpr
  refine ⟨?_, ?_, ?_⟩
  · intro hd
    simp only [transcribe_audio, hpr, hc, hs, pyLen,
      if_neg (Nat.not_lt.mpr hlen), hd]
  · intro bs hbs
    exact b64_roundtrip bs hbs
  · intro bs hbs hpay
    subst hpay
    simp only [transcribe_audio, hpr, hc, hs, pyLen,
      if_neg (Nat.not_lt.mpr hlen), b64_roundtrip bs hbs]
    cases hi : infer bs with
    | error e => simp [hi]
    | ok pr =>
      obtain ⟨text, lang⟩ := pr
      simp [hi]

/-- Concrete witness for C7: the byte 65 encodes and decodes back to itself,
and a request carrying that encoding hands exactly the byte 65 to the
backend. -/
theorem C7_witness :
    b64decode (b64encode [65]) = Except.ok [65]
    ∧ (transcribe_audio (some 1) 0 (fun _ => Except.error ())
        (Json.obj [("audio_data", Json.str (b64encode [65]))]) "t"
        (ModelState.mk none 0 0) []).decodedBytes = some [65] := by
  have h := C7_base64_decode (some 1) 0 (fun _ => Except.error ())
      (Json.obj [("audio_data", Json.str (b64encode [65]))]) "t"
      (ModelState.mk none 0 0) [] (b64encode [65]) rfl rfl rfl (by decide)
  exact ⟨h.2.1 [65] (by decide), h.2.2 [65] (by decide) rfl⟩

/-- Counterexample for C10: a request body that parses to the non-object
JSON value given by the string hello is answered with the 400 missing-field
response, not the 500 unclassified-failure response the claim requires for
every non-object body — string bodies support the Python membership test, so
no exception is raised. -/
theorem C10_counterexample :
    (transcribe_audio (some 1) 0 (fun _ => Except.error ())
        (Json.str "hello") "t" (ModelState.mk none 0 0) []).result
      = TranscribeResult.missingField
    ∧ ¬ ((transcribe_audio (some 1) 0 (fun _ => Except.error ())
        (Json.str "hello") "t" (ModelState.mk none 0 0) []).result
      = TranscribeResult.serverError) := by
  have h1 : (transcribe_audio (some 1) 0 (fun _ => Except.error ())
      (Json.str "hello") "t" (ModelState.mk none 0 0) []).result
      = TranscribeResult.missingField := rfl
  refine ⟨h1, fun h => ?_⟩
  rw [h1] at h
  exact TranscribeResult.noConfusion h

/-- Claim C10 as amended: when the request body parses to null, a number, or
a boolean — values on which the Python membership test raises — the handler
returns the generic 500 response rather than the 400 missing-field error,
the raise being absorbed by the catch-all handler; a non-object body that
supports membership (a string or an array) takes the 400 missing-field path
instead when nothing in it matches the field name. -/
theorem C10_nonobject_body (factory : Option ℕ) (now : ℚ)
    (infer : List ℕ → Except Unit (String × String)) (body : Json)
    (tempName : String) (s0 : ModelState) (files0 : List String)
    (hm : (get_model factory now (cleanup_model_if_idle now s0)).1.isSome)
    (hb : body = Json.null ∨ (∃ n, body = Json.num n)
      ∨ (∃ b, body = Json.jbool b)) :
    (transcribe_audio factory now infer body tempName s0 files0).result
      = TranscribeResult.serverError := by
  obtain ⟨m, hm2⟩ := Option.isSome_iff_exists.mp hm
  have hpr : get_model factory now (cleanup_model_if_idle now s0)
      = (some m, (get_model factory now (cleanup_model_if_idle now s0)).2) := by
    rw [← hm2]
  generalize (get_model factory now (cleanup_model_if_idle now s0)).2 = s2
    at hpr
  rcases hb with hb | ⟨n, hb⟩ | ⟨b, hb⟩ <;> subst hb <;>
    simp only [transcribe_audio, hpr, pyContains]

/-- Concrete witness for C10 (amended): a null body with an available model
is answered with the 500 response. -/
theorem C10_witness :
    (transcribe_audio (some 1) 0 (fun _ => Except.error ()) Json.null "t"
        (ModelState.mk none 0 0) []).result
      = TranscribeResult.serverError := by
  exact C10_nonobject_body (some 1) 0 (fun _ => Except.error ()) Json.null
    "t" (ModelState.mk none 0 0) [] rfl (Or.inl rfl)
